import Mathlib

/-
Verification of the haystack pipeline execution engine
(src/haystack/core/pipeline/pipeline.py) against its specification.

The engine is shallowly embedded: Python dicts become insertion-ordered
association lists, component instances become Lean functions from an input
mapping to a run result, and the two `while` loops of `Pipeline.run` and
`Pipeline._run_subgraph` become fuel-bounded recursions whose step
functions mirror the Python loop bodies statement by statement.

`Pipeline.run` (pipeline.py) is translated directly from the source.
The helper procedures it calls live in `haystack/core/pipeline/base.py`,
which is not part of the sources at hand; those helpers are modelled from
the specification's description (sections 4.1, 4.2, 4.4, 4.6 of the spec)
and are each marked `Modelled from the spec:` in their doc comment.
-/

namespace Haystack

/-- Insertion-ordered association list, the embedding of a Python `dict`:
updating an existing key keeps its position, a new key is appended. -/
abbrev Dict (α : Type) := List (String × α)

/-- Lookup, the embedding of `d.get(k)` / `d[k]`. -/
def dget {α : Type} (d : Dict α) (k : String) : Option α :=
  match d with
  | [] => none
  | (k', v) :: rest => if k' = k then some v else dget rest k

/-- Key membership, the embedding of `k in d`. -/
def dmem {α : Type} (d : Dict α) (k : String) : Bool :=
  (dget d k).isSome

/-- Update-or-append, the embedding of `d[k] = v` on a Python dict:
an existing key is updated in place, a new key is appended at the end. -/
def dset {α : Type} (d : Dict α) (k : String) (v : α) : Dict α :=
  match d with
  | [] => [(k, v)]
  | (k', v') :: rest => if k' = k then (k, v) :: rest else (k', v') :: dset rest k v

/-- Key removal, the embedding of `del d[k]` / `d.pop(k, None)` (keys of a
Python dict are unique, so removing every binding of `k` is the same as
removing its one binding). -/
def ddel {α : Type} (d : Dict α) (k : String) : Dict α :=
  d.filter (fun kv => kv.1 ≠ k)

/-- The keys of the dict in insertion order, the embedding of `list(d.keys())`. -/
def dkeys {α : Type} (d : Dict α) : List String :=
  d.map (·.1)

/-- Merge-update, the embedding of `d.update(e)`: every entry of `e` is
written into `d` in order. -/
def dupdate {α : Type} (d e : Dict α) : Dict α :=
  e.foldl (fun acc kv => dset acc kv.1 kv.2) d

/-- A scalar value flowing along a pipeline edge. -/
inductive Value where
  | vnat : Nat → Value
  | vstr : String → Value
  | vbool : Bool → Value
  | vnone : Value
deriving DecidableEq, Repr

/-- A value stored in the pending-inputs map: a plain value for an ordinary
socket, or the accumulated list a variadic socket builds up. -/
inductive PValue where
  | pv : Value → PValue
  | plist : List Value → PValue
deriving DecidableEq, Repr

/-- An input socket as declared by a component: name, sender component
names, variadic and lazy flags, and an optional default value.
`none` as default embeds haystack's `_empty` sentinel. -/
structure InputSocket where
  name : String
  senders : List String
  is_variadic : Bool
  is_lazy : Bool
  default_value : Option Value
deriving DecidableEq, Repr

/-- An output socket as declared by a component: name and the names of the
receiver components it feeds. -/
structure OutputSocket where
  name : String
  receivers : List String
deriving DecidableEq, Repr

/-- The value a component's `run` returns: a mapping, or some other Python
object (which the engine must reject). -/
inductive RunResult where
  | mapping : Dict Value → RunResult
  | notMapping : Value → RunResult

/-- A component instance: socket declarations plus the `run` operation,
a synchronous function from the collected inputs to a result. -/
structure Component where
  input_sockets : List InputSocket
  output_sockets : List OutputSocket
  run : Dict PValue → RunResult

/-- A socket-level connection, the embedding of a graph edge with its
`from_socket` / `to_socket` data. -/
structure Edge where
  sender : String
  from_socket : String
  receiver : String
  to_socket : String
deriving DecidableEq, Repr

/-- The engine-level runtime errors raised by `Pipeline.run`:
`PipelineRuntimeError` (component returned a non-mapping, carries the
offending component's name), `PipelineMaxComponentRuns` (per-component
visit cap exceeded, carries the component's name), and `IndexErr`
embedding a Python `IndexError` from popping an empty list. -/
inductive PipelineError where
  | PipelineRuntimeError : String → PipelineError
  | PipelineMaxComponentRuns : String → PipelineError
  | IndexErr : PipelineError
deriving DecidableEq, Repr

/-- The static pipeline: named components, socket-level edges, the
per-component visit cap, and two precomputed tables that
`PipelineBase._break_cycles_in_graph` and the topological sort of the
acyclic skeleton produce in the source.

Modelled from the spec: `components_in_cycles` is the "cycle id ->
ordered member list" table of spec section 9 / 4.3, keyed per component
(a component maps to the list of cycles it belongs to, each an ordered
member list); `topo_order` is the topological order of the acyclic
skeleton used to seed the run queue. Both are data of the static graph,
computed before the run loop starts; the run loop only reads them. -/
structure Pipeline where
  components : Dict Component
  edges : List Edge
  max_runs_per_component : Nat
  components_in_cycles : Dict (List (List String))
  topo_order : List String

/-- Finds a declared input socket of a component by name, the embedding of
`instance.__haystack_input__._sockets_dict[socket_name]`. -/
def findInputSocket (comp : Component) (socket_name : String) : Option InputSocket :=
  comp.input_sockets.find? (fun s => s.name = socket_name)

/-- Finds a declared output socket of a component by name, the embedding of
`instance.__haystack_output__._sockets_dict[socket_name]`. -/
def findOutputSocket (comp : Component) (socket_name : String) : Option OutputSocket :=
  comp.output_sockets.find? (fun s => s.name = socket_name)

/-- The variadic-input reset loop of `Pipeline._run_component`
(pipeline.py lines 72-77): every declared input socket of the component
that is present in the consumed inputs and is variadic is reset to the
empty list; everything else is untouched. -/
def resetVariadicInputs (comp : Component) (inputs : Dict PValue) : Dict PValue :=
  comp.input_sockets.foldl
    (fun acc socket =>
      if dmem acc socket.name then
        if socket.is_variadic then dset acc socket.name (PValue.plist []) else acc
      else acc)
    inputs

/-- The embedding of `Pipeline._run_component` (pipeline.py lines 34-87):
calls the component's `run` with the collected inputs, increments the
component's visit counter, resets the consumed variadic inputs to empty
lists, and only then checks that the result is a mapping, raising
`PipelineRuntimeError` naming the component if it is not. The mutations
performed before the check survive the raise, so the updated visit
counters and inputs are returned alongside the error. -/
def _run_component (p : Pipeline) (name : String) (visits : Dict Nat)
    (inputs : Dict PValue) :
    Except PipelineError (Dict Value) × Dict Nat × Dict PValue :=
  match dget p.components name with
  | none => (Except.error PipelineError.IndexErr, visits, inputs)
  | some comp =>
    let res := comp.run inputs
    let visits' := dset visits name ((dget visits name).getD 0 + 1)
    let inputs' := resetVariadicInputs comp inputs
    match res with
    | RunResult.notMapping _ =>
      (Except.error (PipelineError.PipelineRuntimeError name), visits', inputs')
    | RunResult.mapping out => (Except.ok out, visits', inputs')

/-- Modelled from the spec: a lazy-variadic consumer (spec glossary and
section 3) is a component with a variadic input socket carrying the
`is_lazy` flag. Embeds `_is_lazy_variadic` from base.py. -/
def _is_lazy_variadic (comp : Component) : Bool :=
  comp.input_sockets.any (fun s => s.is_variadic && s.is_lazy)

/-- Modelled from the spec: a component all of whose input sockets carry a
default value (the "has-default" side of the spec's
"lazy-variadic-or-has-default component", section 4.4). -/
def _has_all_inputs_with_defaults (comp : Component) : Bool :=
  comp.input_sockets.all (fun s => s.default_value.isSome)

/-- Modelled from the spec: `has_enough_inputs` of spec section 4.2 —
true iff every required (non-defaulted) non-variadic input socket has a
value present in the pending inputs, and every variadic input socket
either has at least one accumulated value or has no senders at all.
Embeds `_component_has_enough_inputs_to_run` from base.py. -/
def _component_has_enough_inputs_to_run (p : Pipeline) (name : String)
    (components_inputs : Dict (Dict PValue)) : Bool :=
  match dget p.components name with
  | none => false
  | some comp =>
    let pending := (dget components_inputs name).getD []
    comp.input_sockets.all fun s =>
      if s.is_variadic then
        s.senders.isEmpty ||
          (match dget pending s.name with
           | some (PValue.plist vs) => !vs.isEmpty
           | some (PValue.pv _) => true
           | none => false)
      else
        s.default_value.isSome || dmem pending s.name

/-- One receiver of a component's output, the embedding of the
`(receiver_name, sender_socket, receiver_socket)` triples that
`_find_receivers_from` returns. -/
structure Receiver where
  receiver : String
  from_socket : OutputSocket
  to_socket : InputSocket
deriving DecidableEq, Repr

/-- Modelled from the spec: `receivers_of` of spec section 4.1 — the
receivers reached directly from any output of the component, with the
socket objects on both ends of each edge. Embeds `_find_receivers_from`
from base.py. Edges whose sockets are not declared are skipped. -/
def _find_receivers_from (p : Pipeline) (name : String) : List Receiver :=
  p.edges.filterMap fun e =>
    if e.sender = name then
      match dget p.components name, dget p.components e.receiver with
      | some sender_comp, some receiver_comp =>
        match findOutputSocket sender_comp e.from_socket,
              findInputSocket receiver_comp e.to_socket with
        | some outS, some inS => some ⟨e.receiver, outS, inS⟩
        | _, _ => none
      | _, _ => none
    else none

/-- Modelled from the spec: scheduling a component (spec section 4.2) —
it is moved out of the waiting queue if parked there, and appended to
the run queue unless already scheduled. Embeds `_enqueue_component`
from base.py. Queues hold component names; the instance half of the
source's `(name, instance)` pairs is recovered from the graph. -/
def _enqueue_component (name : String) (run_queue waiting_queue : List String) :
    List String × List String :=
  let waiting_queue := waiting_queue.filter (fun n => n ≠ name)
  let run_queue := if run_queue.contains name then run_queue else run_queue ++ [name]
  (run_queue, waiting_queue)

/-- Modelled from the spec: removing a component from both queues.
Embeds `_dequeue_component` from base.py. -/
def _dequeue_component (name : String) (run_queue waiting_queue : List String) :
    List String × List String :=
  (run_queue.filter (fun n => n ≠ name), waiting_queue.filter (fun n => n ≠ name))

/-- Modelled from the spec: parking a component in the waiting queue
(appended unless already present). Embeds `_enqueue_waiting_component`
from base.py. -/
def _enqueue_waiting_component (name : String) (waiting_queue : List String) :
    List String :=
  if waiting_queue.contains name then waiting_queue else waiting_queue ++ [name]

/-- Modelled from the spec: removing a component from the waiting queue.
Embeds `_dequeue_waiting_component` from base.py. -/
def _dequeue_waiting_component (name : String) (waiting_queue : List String) :
    List String :=
  waiting_queue.filter (fun n => n ≠ name)

/-- Modelled from the spec: `distribute_output` of spec section 4.2 — for
each `(output_key, value)` produced and each receiver registered for that
output key, writes the value into the receiver's pending inputs
(appending if the input is variadic, overwriting otherwise) and schedules
the receiver; output keys with no registered receiver are left in the
returned dict. Embeds `_distribute_output` from base.py. -/
def _distribute_output (receivers : List Receiver) (output : Dict Value)
    (components_inputs : Dict (Dict PValue)) (run_queue waiting_queue : List String) :
    Dict Value × Dict (Dict PValue) × List String × List String :=
  receivers.foldl
    (fun acc r =>
      let (res, components_inputs, run_queue, waiting_queue) := acc
      match dget output r.from_socket.name with
      | none => (res, components_inputs, run_queue, waiting_queue)
      | some value =>
        let res := ddel res r.from_socket.name
        let recvInputs := (dget components_inputs r.receiver).getD []
        let newVal :=
          if r.to_socket.is_variadic then
            match dget recvInputs r.to_socket.name with
            | some (PValue.plist vs) => PValue.plist (vs ++ [value])
            | _ => PValue.plist [value]
          else PValue.pv value
        let components_inputs :=
          dset components_inputs r.receiver (dset recvInputs r.to_socket.name newVal)
        let (run_queue, waiting_queue) := _enqueue_component r.receiver run_queue waiting_queue
        (res, components_inputs, run_queue, waiting_queue))
    (output, components_inputs, run_queue, waiting_queue)

/-- Modelled from the spec: the spec (section 4.4) does not describe any
pruning of receivers that will receive no input, so the helper
`_find_components_that_will_receive_no_input` from base.py is modelled
as finding none. -/
def _find_components_that_will_receive_no_input (_name : String)
    (_res : Dict Value) : List String :=
  []

/-- Modelled from the spec: stuck detection (spec sections 4.4 and 4.6) —
once two consecutive waiting-queue snapshots agree, the run is stuck
exactly when no waiting component is a lazy-variadic consumer or a
component whose inputs all carry defaults (otherwise such a component is
force-enqueued with its defaults instead). Embeds `_is_stuck_in_a_loop`
from base.py. -/
def _is_stuck_in_a_loop (p : Pipeline) (waiting_queue : List String) : Bool :=
  !(waiting_queue.any fun n =>
    match dget p.components n with
    | none => false
    | some comp => _is_lazy_variadic comp || _has_all_inputs_with_defaults comp)

/-- Modelled from the spec: "pick the first lazy-variadic-or-has-default
component from the waiting set" (spec section 4.4). Embeds
`_find_next_runnable_lazy_variadic_or_default_component` from base.py;
only called on the non-stuck path, where such a component exists. -/
def _find_next_runnable_lazy_variadic_or_default_component (p : Pipeline)
    (waiting_queue : List String) : String :=
  match waiting_queue.find? (fun n =>
    match dget p.components n with
    | none => false
    | some comp => _is_lazy_variadic comp || _has_all_inputs_with_defaults comp) with
  | some n => n
  | none => waiting_queue.headD ""

/-- Modelled from the spec: when the run queue drains, the waiting queue is
re-checked (spec sections 3 and 4.4) — the first waiting component that
has enough inputs to run is chosen, or the first waiting component if
none does. Embeds `_find_next_runnable_component` from base.py. -/
def _find_next_runnable_component (p : Pipeline)
    (components_inputs : Dict (Dict PValue)) (waiting_queue : List String) : String :=
  match waiting_queue.find? (fun n => _component_has_enough_inputs_to_run p n components_inputs) with
  | some n => n
  | none => waiting_queue.headD ""

/-- Modelled from the spec: "apply its default values for any still-missing
inputs" (spec section 4.4) — every input socket carrying a default whose
name is absent from the component's pending inputs is filled with the
default, wrapped in a singleton list for a variadic socket. Embeds
`_add_missing_input_defaults` from base.py. -/
def _add_missing_input_defaults (p : Pipeline) (name : String)
    (components_inputs : Dict (Dict PValue)) : Dict (Dict PValue) :=
  match dget p.components name with
  | none => components_inputs
  | some comp =>
    let pending := (dget components_inputs name).getD []
    let pending := comp.input_sockets.foldl
      (fun acc socket =>
        match socket.default_value with
        | none => acc
        | some d =>
          if dmem acc socket.name then acc
          else dset acc socket.name
            (if socket.is_variadic then PValue.plist [d] else PValue.pv d))
      pending
    dset components_inputs name pending

/-- Modelled from the spec: the per-run visit counters, reset to zero for
every component at the start of every run (spec section 3). Embeds
`PipelineBase._init_graph` as called at the top of `run`. -/
def _init_graph (p : Pipeline) : Dict Nat :=
  p.components.map (fun kv => (kv.1, 0))

/-- Modelled from the spec: building the initial pending-inputs state from
the caller's data (spec sections 3 and 6): each supplied value is stored
under its component and socket, wrapped in a singleton list when the
socket is variadic. Embeds `PipelineBase._init_inputs_state`. -/
def _init_inputs_state (p : Pipeline) (data : Dict (Dict Value)) :
    Dict (Dict PValue) :=
  data.foldl
    (fun acc kv =>
      let (name, cinputs) := kv
      let pending := cinputs.foldl
        (fun pacc skv =>
          let (socket_name, value) := skv
          let wrapped :=
            match dget p.components name with
            | none => PValue.pv value
            | some comp =>
              match findInputSocket comp socket_name with
              | some socket =>
                if socket.is_variadic then PValue.plist [value] else PValue.pv value
              | none => PValue.pv value
          dset pacc socket_name wrapped)
        ((dget acc name).getD [])
      dset acc name pending)
    []

/-- Equality of two waiting-queue snapshots as name sets, the embedding of
Python set equality on `{item[0] for item in waiting_queue}`. -/
def sameSet (a b : List String) : Bool :=
  a.all (fun x => b.contains x) && b.all (fun x => a.contains x)

/-- The deletion condition of `Pipeline._run_subgraph` (pipeline.py lines
142-147): the socket named by this pending key has a non-empty sender
list entirely contained in the cycle. A key naming no declared socket
yields `false` (the source would raise a `KeyError` there; such keys do
not arise in well-formed runs). -/
def cycleConsumed (comp : Component) (cycle : List String) (socket_name : String) : Bool :=
  match findInputSocket comp socket_name with
  | none => false
  | some socket =>
    !socket.senders.isEmpty && socket.senders.all (fun s => cycle.contains s)

/-- The consumed-input deletion loop of `Pipeline._run_subgraph`
(pipeline.py lines 138-150): every pending entry whose declared socket
has a non-empty sender list entirely contained in the cycle is deleted;
entries with no senders (supplied by the user) and entries with at least
one sender outside the cycle are kept. -/
def deleteConsumedCycleInputs (comp : Component) (cycle : List String)
    (pending : Dict PValue) : Dict PValue :=
  (dkeys pending).foldl
    (fun acc socket_name =>
      if cycleConsumed comp cycle socket_name then ddel acc socket_name else acc)
    pending

/-- The for/else receiver scan of `Pipeline._run_subgraph` (pipeline.py
lines 161-171): true iff some output key the component just produced
belongs to an output socket with at least one receiver inside the cycle.
The subgraph loop's exit flag `cycle_received_inputs` is set exactly when
this is false. -/
def sendsOutputToCycle (comp : Component) (res : Dict Value) (cycle : List String) : Bool :=
  res.any (fun kv =>
    match findOutputSocket comp kv.1 with
    | none => false
    | some os => os.receivers.any (fun r => cycle.contains r))

/-- The trailing no-progress block shared verbatim by the two run loops
(pipeline.py lines 190-218 and 444-472). When the run queue is empty and
the waiting queue is not: if the two stored waiting-queue snapshots are
both set and equal as sets, either declare a stuck loop (emit a warning,
returned flag `true` = break) or force-enqueue the first
lazy-variadic-or-default waiting component with its defaults; otherwise
shift the snapshots and enqueue the next runnable waiting component. -/
def stuckCheckBlock (p : Pipeline) (components_inputs : Dict (Dict PValue))
    (run_queue waiting_queue : List String)
    (before_last last : Option (List String)) (warnings : Nat) :
    Dict (Dict PValue) × List String × List String ×
      Option (List String) × Option (List String) × Nat × Bool :=
  if run_queue.isEmpty && !waiting_queue.isEmpty then
    let shiftAndPick : Dict (Dict PValue) × List String × List String ×
        Option (List String) × Option (List String) × Nat × Bool :=
      let before_last := last
      let last := some waiting_queue
      let name := _find_next_runnable_component p components_inputs waiting_queue
      let components_inputs := _add_missing_input_defaults p name components_inputs
      let (run_queue, waiting_queue) := _enqueue_component name run_queue waiting_queue
      (components_inputs, run_queue, waiting_queue, before_last, last, warnings, false)
    match before_last, last with
    | some b, some l =>
      if sameSet b l then
        if _is_stuck_in_a_loop p waiting_queue then
          (components_inputs, run_queue, waiting_queue, some b, some l, warnings + 1, true)
        else
          let name := _find_next_runnable_lazy_variadic_or_default_component p waiting_queue
          let components_inputs := _add_missing_input_defaults p name components_inputs
          let (run_queue, waiting_queue) := _enqueue_component name run_queue waiting_queue
          (components_inputs, run_queue, waiting_queue, some b, some l, warnings, false)
      else shiftAndPick
    | _, _ => shiftAndPick
  else
    (components_inputs, run_queue, waiting_queue, before_last, last, warnings, false)

/-- The mutable state of one `_run_subgraph` activation. `warnings` counts
the `warn(...)` calls emitted so far (shared with the outer run). -/
structure SubState where
  visits : Dict Nat
  components_inputs : Dict (Dict PValue)
  run_queue : List String
  waiting_queue : List String
  before_last_waiting_queue : Option (List String)
  last_waiting_queue : Option (List String)
  subgraph_outputs : Dict (Dict Value)
  extra_outputs : Dict (Dict Value)
  warnings : Nat
deriving DecidableEq, Repr

/-- The status of the subgraph loop after one iteration of its body:
iterate again, exit the loop normally (exit flag set or stuck break), or
propagate a raised error. -/
inductive SubOutcome where
  | next : SubState → SubOutcome
  | finished : SubState → SubOutcome
  | errored : PipelineError → SubState → SubOutcome
deriving DecidableEq, Repr

/-- The decision ending each iteration of the subgraph loop (pipeline.py
lines 120, 171 and 206): a stuck break leaves the loop; otherwise the
`while not cycle_received_inputs` condition leaves it exactly when the
exit flag was set; otherwise the loop iterates. -/
def loopDecision (brk cycle_received_inputs : Bool) (st' : SubState) : SubOutcome :=
  if brk then SubOutcome.finished st'
  else if cycle_received_inputs then SubOutcome.finished st'
  else SubOutcome.next st'

/-- One iteration of the `while not cycle_received_inputs` body of
`Pipeline._run_subgraph` (pipeline.py lines 120-218), translated
statement by statement from the source. -/
def subgraphStep (p : Pipeline) (cycle : List String)
    (include_outputs_from : List String) (st : SubState) : SubOutcome :=
  match st.run_queue with
  | [] => SubOutcome.errored PipelineError.IndexErr st
  | name :: rest =>
    let st := { st with run_queue := rest }
    match dget p.components name with
    | none => SubOutcome.errored PipelineError.IndexErr st
    | some comp =>
      if _is_lazy_variadic comp &&
          !(rest.all fun n =>
            match dget p.components n with
            | some c => _is_lazy_variadic c
            | none => false) then
        SubOutcome.next
          { st with waiting_queue := _enqueue_waiting_component name st.waiting_queue }
      else if _component_has_enough_inputs_to_run p name st.components_inputs then
        if (dget st.visits name).getD 0 > p.max_runs_per_component then
          SubOutcome.errored (PipelineError.PipelineMaxComponentRuns name) st
        else
          match _run_component p name st.visits ((dget st.components_inputs name).getD []) with
          | (Except.error e, visits', inputs') =>
            SubOutcome.errored e
              { st with visits := visits',
                        components_inputs := dset st.components_inputs name inputs' }
          | (Except.ok res, visits', inputs') =>
            let components_inputs := dset st.components_inputs name inputs'
            let components_inputs :=
              dset components_inputs name
                (deleteConsumedCycleInputs comp cycle
                  ((dget components_inputs name).getD []))
            let extra_outputs :=
              if include_outputs_from.contains name then
                dset st.extra_outputs name res
              else st.extra_outputs
            let cycle_received_inputs := !sendsOutputToCycle comp res cycle
            let waiting_queue := _dequeue_waiting_component name st.waiting_queue
            let (run_queue, waiting_queue) :=
              (_find_components_that_will_receive_no_input name res).foldl
                (fun (acc : List String × List String) n =>
                  _dequeue_component n acc.1 acc.2)
                (st.run_queue, waiting_queue)
            let receivers :=
              (_find_receivers_from p name).filter (fun r => cycle.contains r.receiver)
            let (res, components_inputs, run_queue, waiting_queue) :=
              _distribute_output receivers res components_inputs run_queue waiting_queue
            let subgraph_outputs :=
              if res.isEmpty then st.subgraph_outputs
              else dset st.subgraph_outputs name res
            let (components_inputs, run_queue, waiting_queue, before_last, last, warnings, brk) :=
              stuckCheckBlock p components_inputs run_queue waiting_queue
                none none st.warnings
            let st' : SubState :=
              { visits := visits', components_inputs, run_queue, waiting_queue,
                before_last_waiting_queue := before_last, last_waiting_queue := last,
                subgraph_outputs, extra_outputs, warnings }
            loopDecision brk cycle_received_inputs st'
      else
        let waiting_queue := _enqueue_waiting_component name st.waiting_queue
        let (components_inputs, run_queue, waiting_queue, before_last, last, warnings, brk) :=
          stuckCheckBlock p st.components_inputs st.run_queue waiting_queue
            st.before_last_waiting_queue st.last_waiting_queue st.warnings
        let st' : SubState :=
          { st with components_inputs, run_queue, waiting_queue,
                    before_last_waiting_queue := before_last, last_waiting_queue := last,
                    warnings }
        loopDecision brk false st'

/-- How a `_run_subgraph` activation ends: a normal return of the final
state, or a raised error (the state at the raise is carried, since the
mutations made before the raise survive it in the source). -/
inductive SubExit where
  | ok : SubState → SubExit
  | failed : PipelineError → SubState → SubExit
deriving DecidableEq, Repr

/-- The `while not cycle_received_inputs` loop of `Pipeline._run_subgraph`,
as a fuel-bounded recursion over `subgraphStep`; `none` means the fuel ran
out before the loop finished. -/
def subgraphLoop (p : Pipeline) (cycle : List String)
    (include_outputs_from : List String) : Nat → SubState → Option SubExit
  | 0, _ => none
  | fuel + 1, st =>
    match subgraphStep p cycle include_outputs_from st with
    | SubOutcome.next st' => subgraphLoop p cycle include_outputs_from fuel st'
    | SubOutcome.finished st' => some (SubExit.ok st')
    | SubOutcome.errored e st' => some (SubExit.failed e st')

/-- The embedding of `Pipeline._run_subgraph` (pipeline.py lines 89-220):
seeds the internal run queue from the cycle order starting at the entry
component and runs the inner loop. The shared visit counters, pending
inputs and warning count are threaded in and out. -/
def _run_subgraph (p : Pipeline) (cycle : List String) (component_name : String)
    (visits : Dict Nat) (components_inputs : Dict (Dict PValue))
    (include_outputs_from : List String) (warnings : Nat) (fuel : Nat) :
    Option SubExit :=
  subgraphLoop p cycle include_outputs_from fuel
    { visits := visits, components_inputs := components_inputs,
      run_queue := cycle.dropWhile (fun n => n ≠ component_name),
      waiting_queue := [], before_last_waiting_queue := none,
      last_waiting_queue := none, subgraph_outputs := [], extra_outputs := [],
      warnings := warnings }

/-- The consumed-input deletion loop of the acyclic branch of
`Pipeline.run` (pipeline.py lines 411-418): every pending entry whose
declared socket has any senders is deleted; entries supplied by the user
(sockets with no senders) are kept. -/
def deleteConsumedSenderInputs (comp : Component) (pending : Dict PValue) : Dict PValue :=
  (dkeys pending).foldl
    (fun acc socket_name =>
      match findInputSocket comp socket_name with
      | none => acc
      | some socket =>
        if socket.senders.isEmpty then acc else ddel acc socket_name)
    pending

/-- The inner loop of the extra-outputs merge at the end of `Pipeline.run`
(pipeline.py lines 484-486): cached values are added to an existing
final-outputs entry only under keys not already present — existing keys
are never overwritten. -/
def mergeInner (inner output : Dict Value) : Dict Value :=
  output.foldl
    (fun iacc okv => if dmem iacc okv.1 then iacc else dset iacc okv.1 okv.2)
    inner

/-- The extra-outputs merge at the end of `Pipeline.run` (pipeline.py
lines 474-487): a cached output is installed wholesale only for a
component with no final-outputs entry; for a component that already has
an entry, `mergeInner` adds only the missing keys. -/
def mergeExtras (final_outputs extra_outputs : Dict (Dict Value)) : Dict (Dict Value) :=
  extra_outputs.foldl
    (fun acc kv =>
      let (name, output) := kv
      match dget acc name with
      | none => dset acc name output
      | some inner => dset acc name (mergeInner inner output))
    final_outputs

/-- The mutable state of one `Pipeline.run` invocation. -/
structure RunState where
  visits : Dict Nat
  components_inputs : Dict (Dict PValue)
  run_queue : List String
  waiting_queue : List String
  before_last_waiting_queue : Option (List String)
  last_waiting_queue : Option (List String)
  final_outputs : Dict (Dict Value)
  extra_outputs : Dict (Dict Value)
  warnings : Nat
deriving DecidableEq, Repr

/-- The status of the outer run loop after one iteration of its body:
iterate again, leave the loop (stuck break), propagate a raised error, or
report that the inner subgraph call exhausted the evaluation fuel. -/
inductive RunOutcome where
  | next : RunState → RunOutcome
  | finishedLoop : RunState → RunOutcome
  | failed : PipelineError → RunState → RunOutcome
  | outOfFuel : RunOutcome
deriving DecidableEq, Repr

/-- One iteration of the `while len(run_queue) > 0` body of `Pipeline.run`
(pipeline.py lines 366-472), translated statement by statement from the
source; `fuel` bounds the inner `_run_subgraph` activation. -/
def runStep (p : Pipeline) (include_outputs_from : List String) (fuel : Nat)
    (st : RunState) : RunOutcome :=
  match st.run_queue with
  | [] => RunOutcome.finishedLoop st
  | name :: rest =>
    let st := { st with run_queue := rest }
    match dget p.components name with
    | none => RunOutcome.failed PipelineError.IndexErr st
    | some comp =>
      if _is_lazy_variadic comp &&
          !(rest.all fun n =>
            match dget p.components n with
            | some c => _is_lazy_variadic c
            | none => false) then
        RunOutcome.next
          { st with waiting_queue := _enqueue_waiting_component name st.waiting_queue }
      else if _component_has_enough_inputs_to_run p name st.components_inputs &&
          !((dget p.components_in_cycles name).getD []).isEmpty then
        match (dget p.components_in_cycles name).getD [] with
        | [] => RunOutcome.failed PipelineError.IndexErr st
        | c :: _ =>
          match _run_subgraph p c name st.visits st.components_inputs
              include_outputs_from st.warnings fuel with
          | none => RunOutcome.outOfFuel
          | some (SubExit.failed e sub) =>
            RunOutcome.failed e
              { st with visits := sub.visits, components_inputs := sub.components_inputs,
                        warnings := sub.warnings }
          | some (SubExit.ok sub) =>
            let run_queue : List String := []
            let extra_outputs := dupdate st.extra_outputs sub.extra_outputs
            let (components_inputs, run_queue, waiting_queue, final_outputs) :=
              sub.subgraph_outputs.foldl
                (fun acc kv =>
                  let (ci, rq, wq, fo) := acc
                  let (cname, coutput) := kv
                  let receivers := _find_receivers_from p cname
                  let (coutput, ci, rq, wq) :=
                    _distribute_output receivers coutput ci rq wq
                  let fo := if coutput.isEmpty then fo else dset fo cname coutput
                  (ci, rq, wq, fo))
                (sub.components_inputs, run_queue, st.waiting_queue, st.final_outputs)
            let (components_inputs, run_queue, waiting_queue, before_last, last, warnings, brk) :=
              stuckCheckBlock p components_inputs run_queue waiting_queue
                none none sub.warnings
            let st' : RunState :=
              { visits := sub.visits, components_inputs, run_queue, waiting_queue,
                before_last_waiting_queue := before_last, last_waiting_queue := last,
                final_outputs, extra_outputs, warnings }
            if brk then RunOutcome.finishedLoop st' else RunOutcome.next st'
      else if _component_has_enough_inputs_to_run p name st.components_inputs then
        if (dget st.visits name).getD 0 > p.max_runs_per_component then
          RunOutcome.failed (PipelineError.PipelineMaxComponentRuns name) st
        else
          match _run_component p name st.visits ((dget st.components_inputs name).getD []) with
          | (Except.error e, visits', inputs') =>
            RunOutcome.failed e
              { st with visits := visits',
                        components_inputs := dset st.components_inputs name inputs' }
          | (Except.ok res, visits', inputs') =>
            let components_inputs := dset st.components_inputs name inputs'
            let components_inputs :=
              dset components_inputs name
                (deleteConsumedSenderInputs comp
                  ((dget components_inputs name).getD []))
            let extra_outputs :=
              if include_outputs_from.contains name then
                dset st.extra_outputs name res
              else st.extra_outputs
            let waiting_queue := _dequeue_waiting_component name st.waiting_queue
            let (run_queue, waiting_queue) :=
              (_find_components_that_will_receive_no_input name res).foldl
                (fun (acc : List String × List String) n =>
                  _dequeue_component n acc.1 acc.2)
                (st.run_queue, waiting_queue)
            let receivers := _find_receivers_from p name
            let (res, components_inputs, run_queue, waiting_queue) :=
              _distribute_output receivers res components_inputs run_queue waiting_queue
            let final_outputs :=
              if res.isEmpty then st.final_outputs
              else dset st.final_outputs name res
            let (components_inputs, run_queue, waiting_queue, before_last, last, warnings, brk) :=
              stuckCheckBlock p components_inputs run_queue waiting_queue
                none none st.warnings
            let st' : RunState :=
              { visits := visits', components_inputs, run_queue, waiting_queue,
                before_last_waiting_queue := before_last, last_waiting_queue := last,
                final_outputs, extra_outputs, warnings }
            if brk then RunOutcome.finishedLoop st' else RunOutcome.next st'
      else
        let waiting_queue := _enqueue_waiting_component name st.waiting_queue
        let (components_inputs, run_queue, waiting_queue, before_last, last, warnings, brk) :=
          stuckCheckBlock p st.components_inputs st.run_queue waiting_queue
            st.before_last_waiting_queue st.last_waiting_queue st.warnings
        let st' : RunState :=
          { st with components_inputs, run_queue, waiting_queue,
                    before_last_waiting_queue := before_last, last_waiting_queue := last,
                    warnings }
        if brk then RunOutcome.finishedLoop st' else RunOutcome.next st'

/-- How the outer run loop ends: a normal exit of the final state, or a
raised error with the state at the raise. -/
inductive RunExit where
  | ok : RunState → RunExit
  | failed : PipelineError → RunState → RunExit
deriving DecidableEq, Repr

/-- The `while len(run_queue) > 0` loop of `Pipeline.run`, as a
fuel-bounded recursion over `runStep`; `none` means the fuel ran out. -/
def runLoop (p : Pipeline) (include_outputs_from : List String) :
    Nat → RunState → Option RunExit
  | 0, _ => none
  | fuel + 1, st =>
    if st.run_queue.isEmpty then some (RunExit.ok st)
    else
      match runStep p include_outputs_from fuel st with
      | RunOutcome.next st' => runLoop p include_outputs_from fuel st'
      | RunOutcome.finishedLoop st' => some (RunExit.ok st')
      | RunOutcome.failed e st' => some (RunExit.failed e st')
      | RunOutcome.outOfFuel => none

/-- The socket-default seeding of `Pipeline.run` (pipeline.py lines
337-352): every component gets a pending entry; each input socket with no
senders and no value yet receives its default, wrapped in a singleton
list if variadic; sockets with no default are left alone. -/
def initSocketDefaults (p : Pipeline) (components_inputs : Dict (Dict PValue)) :
    Dict (Dict PValue) :=
  p.components.foldl
    (fun acc kv =>
      let (name, comp) := kv
      let pending := (dget acc name).getD []
      let pending := comp.input_sockets.foldl
        (fun pacc socket =>
          if dmem pacc socket.name then pacc
          else if socket.senders.isEmpty then
            match socket.default_value with
            | some d =>
              dset pacc socket.name
                (if socket.is_variadic then PValue.plist [d] else PValue.pv d)
            | none => pacc
          else pacc)
        pending
      dset acc name pending)
    components_inputs

/-- The embedding of `Pipeline.run` (pipeline.py lines 222-488).
`prior_visits` is the visit-counter state the pipeline instance carries
from any previous call; the first thing `run` does is reset it via
`_init_graph` (pipeline.py line 294). After the loop, the cached extra
outputs are merged into the final outputs when `include_outputs_from` is
non-empty. `none` means the evaluation fuel ran out. -/
def run (p : Pipeline) (_prior_visits : Dict Nat) (data : Dict (Dict Value))
    (include_outputs_from : List String) (fuel : Nat) : Option RunExit :=
  let visits := _init_graph p
  let components_inputs := initSocketDefaults p (_init_inputs_state p data)
  let st : RunState :=
    { visits := visits, components_inputs := components_inputs,
      run_queue := p.topo_order, waiting_queue := [],
      before_last_waiting_queue := none, last_waiting_queue := none,
      final_outputs := [], extra_outputs := [], warnings := 0 }
  match runLoop p include_outputs_from fuel st with
  | none => none
  | some (RunExit.failed e st') => some (RunExit.failed e st')
  | some (RunExit.ok st') =>
    let final_outputs :=
      if include_outputs_from.isEmpty then st'.final_outputs
      else mergeExtras st'.final_outputs st'.extra_outputs
    some (RunExit.ok { st' with final_outputs := final_outputs })

/-- The visit counters a `run` call leaves on the pipeline instance
(they persist after an exception as well). -/
def RunExit.finalVisits : RunExit → Dict Nat
  | RunExit.ok st => st.visits
  | RunExit.failed _ st => st.visits

/-- The error a run ended with, if any. -/
def RunExit.errorOf : RunExit → Option PipelineError
  | RunExit.ok _ => none
  | RunExit.failed e _ => some e

/-- The final outputs of a normally-returning run (`none` if it raised). -/
def RunExit.finalOutputsOf : RunExit → Option (Dict (Dict Value))
  | RunExit.ok st => some st.final_outputs
  | RunExit.failed _ _ => none

/-- The number of warnings a run emitted. -/
def RunExit.warningsOf : RunExit → Nat
  | RunExit.ok st => st.warnings
  | RunExit.failed _ st => st.warnings

/-- The instance-level visit counters after a `run` call, empty when the
fuel ran out (used to feed one call's state into the next call). -/
def visitsAfter (r : Option RunExit) : Dict Nat :=
  match r with
  | some e => e.finalVisits
  | none => []

/-- Stated from the claim (C5, spec section 4.4 step 2), for comparison
with the corresponding branch of `runStep`: when the popped component is
cycle-affiliated and has enough input, the engine hands control to the
cyclic subgraph runner for the FIRST recorded cycle only, clears the
outer run queue, merges the returned extra outputs, distributes the
subgraph's returned outputs to their receivers (re-deriving the run
queue starting from the cleared, empty one), and finally runs the shared
no-progress block. The other recorded cycles are not consulted. -/
def cycleDispatchFromSpec (p : Pipeline) (include_outputs_from : List String)
    (fuel : Nat) (name : String) (firstCycle : List String) (st : RunState) :
    RunOutcome :=
  match _run_subgraph p firstCycle name st.visits st.components_inputs
      include_outputs_from st.warnings fuel with
  | none => RunOutcome.outOfFuel
  | some (SubExit.failed e sub) =>
    RunOutcome.failed e
      { st with visits := sub.visits, components_inputs := sub.components_inputs,
                warnings := sub.warnings }
  | some (SubExit.ok sub) =>
    let cleared_run_queue : List String := []
    let extra_outputs := dupdate st.extra_outputs sub.extra_outputs
    let (components_inputs, run_queue, waiting_queue, final_outputs) :=
      sub.subgraph_outputs.foldl
        (fun acc kv =>
          let (ci, rq, wq, fo) := acc
          let (cname, coutput) := kv
          let receivers := _find_receivers_from p cname
          let (coutput, ci, rq, wq) :=
            _distribute_output receivers coutput ci rq wq
          let fo := if coutput.isEmpty then fo else dset fo cname coutput
          (ci, rq, wq, fo))
        (sub.components_inputs, cleared_run_queue, st.waiting_queue, st.final_outputs)
    let (components_inputs, run_queue, waiting_queue, before_last, last, warnings, brk) :=
      stuckCheckBlock p components_inputs run_queue waiting_queue
        none none sub.warnings
    let st' : RunState :=
      { visits := sub.visits, components_inputs, run_queue, waiting_queue,
        before_last_waiting_queue := before_last, last_waiting_queue := last,
        final_outputs, extra_outputs, warnings }
    if brk then RunOutcome.finishedLoop st' else RunOutcome.next st'

/-! ### Concrete scenario pipelines used to witness the claims -/

/-- A component with a self-loop: its only output feeds its own input
(spec section 8, max-visits guard scenario). -/
def selfLoopComp : Component :=
  { input_sockets := [⟨"x", ["a"], false, false, none⟩],
    output_sockets := [⟨"o", ["a"]⟩],
    run := fun _ => RunResult.mapping [("o", Value.vnat 0)] }

/-- A pipeline with a single self-looping component `a` and the given
per-component cap. -/
def selfLoopPipeline (cap : Nat) : Pipeline :=
  { components := [("a", selfLoopComp)],
    edges := [⟨"a", "o", "a", "x"⟩],
    max_runs_per_component := cap,
    components_in_cycles := [("a", [["a"]])],
    topo_order := ["a"] }

/-- Caller data seeding the self-loop. -/
def slData : Dict (Dict Value) := [("a", [("x", Value.vnat 0)])]

/-- The subgraph state the self-loop reaches after `k` executions of `a`:
only the visit counter changes from round to round. -/
def slSubState (k : Nat) : SubState :=
  { visits := [("a", k)],
    components_inputs := [("a", [("x", PValue.pv (Value.vnat 0))])],
    run_queue := ["a"], waiting_queue := [],
    before_last_waiting_queue := none, last_waiting_queue := none,
    subgraph_outputs := [], extra_outputs := [], warnings := 0 }

/-- The `add_one` component of the spec's concrete scenario (section 8). -/
def addOneComp : Component :=
  { input_sockets := [⟨"value", [], false, false, none⟩],
    output_sockets := [⟨"sum", ["double"]⟩],
    run := fun inputs =>
      match dget inputs "value" with
      | some (PValue.pv (Value.vnat n)) => RunResult.mapping [("sum", Value.vnat (n + 1))]
      | _ => RunResult.notMapping Value.vnone }

/-- The `double` component of the spec's concrete scenario (section 8). -/
def doubleComp : Component :=
  { input_sockets := [⟨"sum", ["add_one"], false, false, none⟩],
    output_sockets := [⟨"doubled", []⟩],
    run := fun inputs =>
      match dget inputs "sum" with
      | some (PValue.pv (Value.vnat n)) => RunResult.mapping [("doubled", Value.vnat (2 * n))]
      | _ => RunResult.notMapping Value.vnone }

/-- The linear chain `add_one.sum -> double.sum` of spec section 8. -/
def chainPipeline : Pipeline :=
  { components := [("add_one", addOneComp), ("double", doubleComp)],
    edges := [⟨"add_one", "sum", "double", "sum"⟩],
    max_runs_per_component := 100,
    components_in_cycles := [],
    topo_order := ["add_one", "double"] }

/-- Caller data for the chain scenario. -/
def chainData : Dict (Dict Value) := [("add_one", [("value", Value.vnat 3)])]

/-- A source that declares an output socket towards `b` but never produces
it, while feeding the leaf `d` (stuck-loop scenario). -/
def srcComp : Component :=
  { input_sockets := [⟨"u", [], false, false, none⟩],
    output_sockets := [⟨"o", ["b"]⟩, ⟨"k", ["d"]⟩],
    run := fun _ => RunResult.mapping [("k", Value.vnat 5)] }

/-- A component blocked forever on the never-produced input from `s`. -/
def blockedComp : Component :=
  { input_sockets := [⟨"i", ["s"], false, false, none⟩],
    output_sockets := [⟨"bo", []⟩],
    run := fun _ => RunResult.mapping [("bo", Value.vnat 1)] }

/-- A leaf that does receive its input from `s`. -/
def leafComp : Component :=
  { input_sockets := [⟨"j", ["s"], false, false, none⟩],
    output_sockets := [⟨"do", []⟩],
    run := fun inputs =>
      match dget inputs "j" with
      | some (PValue.pv (Value.vnat n)) => RunResult.mapping [("do", Value.vnat (n + 1))]
      | _ => RunResult.notMapping Value.vnone }

/-- The stuck-loop scenario: `b` waits forever, `d` completes, the run
ends with a warning and partial outputs. -/
def stuckPipeline : Pipeline :=
  { components := [("s", srcComp), ("b", blockedComp), ("d", leafComp)],
    edges := [⟨"s", "o", "b", "i"⟩, ⟨"s", "k", "d", "j"⟩],
    max_runs_per_component := 100,
    components_in_cycles := [],
    topo_order := ["s", "b", "d"] }

/-- Caller data for the stuck-loop scenario. -/
def stuckData : Dict (Dict Value) := [("s", [("u", Value.vnat 0)])]

/-- A source declaring an output towards the lazy-variadic `v` that it
never produces. -/
def lazySrcComp : Component :=
  { input_sockets := [⟨"u", [], false, false, none⟩],
    output_sockets := [⟨"o", ["v"]⟩],
    run := fun _ => RunResult.mapping [] }

/-- A consumer with a lazy variadic input socket carrying no default. -/
def lazyVarComp : Component :=
  { input_sockets := [⟨"m", ["s"], true, true, none⟩],
    output_sockets := [⟨"vo", []⟩],
    run := fun _ => RunResult.mapping [("vo", Value.vnat 9)] }

/-- The scenario on which the waiting-queue snapshots become identical
across two consecutive no-progress checks and yet the engine does not
declare a stuck loop: it force-enqueues the lazy-variadic waiting
component forever. -/
def lazyPipeline : Pipeline :=
  { components := [("s", lazySrcComp), ("v", lazyVarComp)],
    edges := [⟨"s", "o", "v", "m"⟩],
    max_runs_per_component := 100,
    components_in_cycles := [],
    topo_order := ["s", "v"] }

/-- Caller data for the lazy-variadic scenario. -/
def lazyData : Dict (Dict Value) := [("s", [("u", Value.vnat 0)])]

/-- The state the lazy-variadic scenario repeats forever: the run queue
drains to `v` alone, both waiting-queue snapshots are `{"v"}`, no warning
has been emitted, and one `runStep` maps this state to itself. -/
def lazyStuckState : RunState :=
  { visits := [("s", 1), ("v", 0)],
    components_inputs := [("s", [("u", PValue.pv (Value.vnat 0))]), ("v", [])],
    run_queue := ["v"], waiting_queue := [],
    before_last_waiting_queue := some ["v"], last_waiting_queue := some ["v"],
    final_outputs := [], extra_outputs := [], warnings := 0 }

/-- The initial run state of the lazy-variadic scenario. -/
def lazyState0 : RunState :=
  { visits := [("s", 0), ("v", 0)],
    components_inputs := [("s", [("u", PValue.pv (Value.vnat 0))]), ("v", [])],
    run_queue := ["s", "v"], waiting_queue := [],
    before_last_waiting_queue := none, last_waiting_queue := none,
    final_outputs := [], extra_outputs := [], warnings := 0 }

/-- The lazy-variadic scenario after `s` ran (and produced nothing). -/
def lazyState1 : RunState :=
  { lazyState0 with visits := [("s", 1), ("v", 0)], run_queue := ["v"] }

/-- The lazy-variadic scenario after the first no-progress check
force-enqueued `v` and took the first waiting-queue snapshot. -/
def lazyState2 : RunState :=
  { lazyState1 with last_waiting_queue := some ["v"] }

/-- The first half of the convergent 2-cycle `a <-> b`: forwards an
incremented counter to `b`; its in-cycle input `x` carries a default so
the cycle can be entered. -/
def cycAComp : Component :=
  { input_sockets := [⟨"x", ["b"], false, false, some (Value.vnat 0)⟩],
    output_sockets := [⟨"ao", ["b"]⟩],
    run := fun inputs =>
      match dget inputs "x" with
      | some (PValue.pv (Value.vnat n)) => RunResult.mapping [("ao", Value.vnat (n + 1))]
      | _ => RunResult.mapping [("ao", Value.vnat 1)] }

/-- The second half of the 2-cycle: loops back to `a` while the counter is
below 3, then emits its final value on a socket with no receiver. -/
def cycBComp : Component :=
  { input_sockets := [⟨"bin", ["a"], false, false, none⟩],
    output_sockets := [⟨"loop", ["a"]⟩, ⟨"final", []⟩],
    run := fun inputs =>
      match dget inputs "bin" with
      | some (PValue.pv (Value.vnat n)) =>
        if n < 3 then RunResult.mapping [("loop", Value.vnat n)]
        else RunResult.mapping [("final", Value.vnat n)]
      | _ => RunResult.notMapping Value.vnone }

/-- The convergent cyclic pipeline: `a.ao -> b.bin`, `b.loop -> a.x`. -/
def cycPipeline : Pipeline :=
  { components := [("a", cycAComp), ("b", cycBComp)],
    edges := [⟨"a", "ao", "b", "bin"⟩, ⟨"b", "loop", "a", "x"⟩],
    max_runs_per_component := 100,
    components_in_cycles := [("a", [["a", "b"]]), ("b", [["a", "b"]])],
    topo_order := ["a", "b"] }

/-- The initial run state of the cyclic pipeline when `run` is called with
no caller data (the cycle is entered through `a`'s default). -/
def cycInitState : RunState :=
  { visits := [("a", 0), ("b", 0)],
    components_inputs := [("a", []), ("b", [])],
    run_queue := ["a", "b"], waiting_queue := [],
    before_last_waiting_queue := none, last_waiting_queue := none,
    final_outputs := [], extra_outputs := [], warnings := 0 }

/-- A subgraph state of the cyclic pipeline in which `b` is about to run
on `bin = 3` and will therefore stop feeding the cycle. -/
def cycSubStateB : SubState :=
  { visits := [("a", 3), ("b", 2)],
    components_inputs := [("a", []), ("b", [("bin", PValue.pv (Value.vnat 3))])],
    run_queue := ["b"], waiting_queue := [],
    before_last_waiting_queue := none, last_waiting_queue := none,
    subgraph_outputs := [], extra_outputs := [], warnings := 0 }

/-- A component whose run returns a non-mapping value (contract breaker). -/
def badComp : Component :=
  { input_sockets :=
      [⟨"many", ["w2"], true, false, none⟩,
       ⟨"user_in", [], false, false, none⟩],
    output_sockets := [],
    run := fun _ => RunResult.notMapping (Value.vnat 7) }

/-- A component with a variadic in-cycle socket, a non-variadic socket fed
from outside the cycle, and a user-fed socket (frame-effect scenarios). -/
def witComp : Component :=
  { input_sockets :=
      [⟨"many", ["w"], true, false, none⟩,
       ⟨"one", ["y"], false, false, none⟩,
       ⟨"user_in", [], false, false, none⟩],
    output_sockets := [⟨"out", ["w"]⟩],
    run := fun _ => RunResult.mapping [("out", Value.vnat 1)] }

/-- A two-component pipeline holding `witComp` (in a self-cycle) and
`badComp`, used to instantiate the frame-effect and error claims. -/
def witPipeline : Pipeline :=
  { components := [("w", witComp), ("bad", badComp)],
    edges := [⟨"w", "out", "w", "many"⟩],
    max_runs_per_component := 100,
    components_in_cycles := [("w", [["w"]])],
    topo_order := ["w", "bad"] }

/-! ### Dictionary lemmas -/

theorem dget_dset_self {α : Type} (d : Dict α) (k : String) (v : α) :
    dget (dset d k v) k = some v := by
  induction d with
  | nil => simp [dset, dget]
  | cons kv rest ih =>
    obtain ⟨k', v'⟩ := kv
    by_cases h : k' = k <;> simp [dset, dget, h, ih]

theorem dget_dset_ne {α : Type} (d : Dict α) (k k' : String) (v : α) (h : k' ≠ k) :
    dget (dset d k' v) k = dget d k := by
  induction d with
  | nil => simp [dset, dget, h]
  | cons kv rest ih =>
    obtain ⟨k'', v''⟩ := kv
    by_cases h2 : k'' = k'
    · subst h2
      simp [dset, dget, h]
    · by_cases h3 : k'' = k
      · rw [h3] at h2
        simp [dset, dget, h2, h3]
      · simp [dset, dget, h2, h3, ih]

theorem dget_ddel_self {α : Type} (d : Dict α) (k : String) :
    dget (ddel d k) k = none := by
  induction d with
  | nil => simp [ddel, dget]
  | cons kv rest ih =>
    obtain ⟨k', v'⟩ := kv
    by_cases h : k' = k <;> simp_all [ddel, dget, List.filter]

theorem dget_ddel_ne {α : Type} (d : Dict α) (k k' : String) (h : k' ≠ k) :
    dget (ddel d k') k = dget d k := by
  induction d with
  | nil => simp [ddel, dget]
  | cons kv rest ih =>
    obtain ⟨k'', v''⟩ := kv
    by_cases h2 : k'' = k'
    · subst h2
      simp_all [ddel, dget, List.filter, h]
    · by_cases h3 : k'' = k <;> simp_all [ddel, dget, List.filter]

theorem dmem_dset_of {α : Type} (d : Dict α) (k k' : String) (v : α)
    (h : dmem d k' = true) : dmem (dset d k v) k' = true := by
  by_cases he : k = k'
  · subst he
    simp [dmem, dget_dset_self]
  · simpa [dmem, dget_dset_ne d k' k v he] using h

theorem dget_eq_none_iff {α : Type} (d : Dict α) (k : String) :
    dget d k = none ↔ k ∉ dkeys d := by
  induction d with
  | nil => simp [dget, dkeys]
  | cons kv rest ih =>
    obtain ⟨k', v'⟩ := kv
    by_cases h : k' = k
    · subst h
      simp [dget, dkeys]
    · simp [dget, dkeys, h, ih, show ¬k = k' from fun hh => h hh.symm]

/-! ### Lemmas about the subgraph runner's consumed-input deletion -/

theorem delfold_preserved (comp : Component) (cycle : List String) (k : String)
    (L : List String) (acc : Dict PValue)
    (h : cycleConsumed comp cycle k = false ∨ k ∉ L) :
    dget (L.foldl
      (fun acc n => if cycleConsumed comp cycle n then ddel acc n else acc) acc) k
      = dget acc k := by
  induction L generalizing acc with
  | nil => rfl
  | cons n rest ih =>
    have hrest : cycleConsumed comp cycle k = false ∨ k ∉ rest := by
      rcases h with h | h
      · exact Or.inl h
      · exact Or.inr (fun hk => h (List.mem_cons_of_mem n hk))
    by_cases hn : n = k
    · subst hn
      have hc : cycleConsumed comp cycle n = false := by
        rcases h with h | h
        · exact h
        · exact absurd (List.mem_cons_self n rest) h
      simp only [List.foldl_cons, hc, Bool.false_eq_true, if_false]
      exact ih acc hrest
    · simp only [List.foldl_cons]
      by_cases hc : cycleConsumed comp cycle n = true
      · simp only [hc, if_true]
        rw [ih (ddel acc n) hrest, dget_ddel_ne acc k n hn]
      · simp only [Bool.not_eq_true] at hc
        simp only [hc, Bool.false_eq_true, if_false]
        exact ih acc hrest

theorem delfold_none (comp : Component) (cycle : List String) (k : String)
    (L : List String) (acc : Dict PValue) (h : dget acc k = none) :
    dget (L.foldl
      (fun acc n => if cycleConsumed comp cycle n then ddel acc n else acc) acc) k
      = none := by
  induction L generalizing acc with
  | nil => exact h
  | cons n rest ih =>
    simp only [List.foldl_cons]
    by_cases hc : cycleConsumed comp cycle n = true
    · simp only [hc, if_true]
      by_cases hn : n = k
      · subst hn
        exact ih (ddel acc n) (dget_ddel_self acc n)
      · exact ih (ddel acc n) (by rw [dget_ddel_ne acc k n hn]; exact h)
    · simp only [Bool.not_eq_true] at hc
      simp only [hc, Bool.false_eq_true, if_false]
      exact ih acc h

theorem delfold_deleted (comp : Component) (cycle : List String) (k : String)
    (L : List String) (acc : Dict PValue)
    (hmem : k ∈ L) (hc : cycleConsumed comp cycle k = true) :
    dget (L.foldl
      (fun acc n => if cycleConsumed comp cycle n then ddel acc n else acc) acc) k
      = none := by
  induction L generalizing acc with
  | nil => exact absurd hmem (List.not_mem_nil k)
  | cons n rest ih =>
    simp only [List.foldl_cons]
    by_cases hn : n = k
    · subst hn
      simp only [hc, if_true]
      exact delfold_none comp cycle n rest (ddel acc n) (dget_ddel_self acc n)
    · have hrest : k ∈ rest := by
        rcases List.mem_cons.mp hmem with h | h
        · exact absurd h.symm hn
        · exact h
      by_cases hcn : cycleConsumed comp cycle n = true
      · simp only [hcn, if_true]
        exact ih (ddel acc n) hrest
      · simp only [Bool.not_eq_true] at hcn
        simp only [hcn, Bool.false_eq_true, if_false]
        exact ih acc hrest

/-! ### Lemmas about the variadic-input reset of `_run_component` -/

theorem resetfold_preserve (L : List InputSocket) (inputs : Dict PValue) (k : String)
    (h : ∀ s ∈ L, s.is_variadic = true → s.name ≠ k) :
    dget (L.foldl
      (fun acc socket =>
        if dmem acc socket.name then
          if socket.is_variadic then dset acc socket.name (PValue.plist []) else acc
        else acc) inputs) k
      = dget inputs k := by
  induction L generalizing inputs with
  | nil => rfl
  | cons s rest ih =>
    have hrest : ∀ t ∈ rest, t.is_variadic = true → t.name ≠ k :=
      fun t ht => h t (List.mem_cons_of_mem s ht)
    simp only [List.foldl_cons]
    by_cases hm : dmem inputs s.name = true
    · by_cases hv : s.is_variadic = true
      · have hne : s.name ≠ k := h s (List.mem_cons_self s rest) hv
        simp only [hm, if_true, hv]
        rw [ih (dset inputs s.name (PValue.plist [])) hrest,
          dget_dset_ne inputs k s.name (PValue.plist []) hne]
      · simp only [Bool.not_eq_true] at hv
        simp only [hm, if_true, hv, Bool.false_eq_true, if_false]
        exact ih inputs hrest
    · simp only [Bool.not_eq_true] at hm
      simp only [hm, Bool.false_eq_true, if_false]
      exact ih inputs hrest

theorem resetfold_keeps (L : List InputSocket) (acc : Dict PValue) (k : String)
    (h : dget acc k = some (PValue.plist [])) :
    dget (L.foldl
      (fun acc socket =>
        if dmem acc socket.name then
          if socket.is_variadic then dset acc socket.name (PValue.plist []) else acc
        else acc) acc) k
      = some (PValue.plist []) := by
  induction L generalizing acc with
  | nil => exact h
  | cons s rest ih =>
    simp only [List.foldl_cons]
    by_cases hm : dmem acc s.name = true
    · by_cases hv : s.is_variadic = true
      · simp only [hm, if_true, hv]
        by_cases hn : s.name = k
        · subst hn
          exact ih _ (dget_dset_self acc s.name (PValue.plist []))
        · exact ih _ (by rw [dget_dset_ne acc k s.name (PValue.plist []) hn]; exact h)
      · simp only [Bool.not_eq_true] at hv
        simp only [hm, if_true, hv, Bool.false_eq_true, if_false]
        exact ih acc h
    · simp only [Bool.not_eq_true] at hm
      simp only [hm, Bool.false_eq_true, if_false]
      exact ih acc h

theorem resetfold_sets (L : List InputSocket) (acc : Dict PValue) (s : InputSocket)
    (hs : s ∈ L) (hv : s.is_variadic = true) (hm : dmem acc s.name = true) :
    dget (L.foldl
      (fun acc socket =>
        if dmem acc socket.name then
          if socket.is_variadic then dset acc socket.name (PValue.plist []) else acc
        else acc) acc) s.name
      = some (PValue.plist []) := by
  induction L generalizing acc with
  | nil => exact absurd hs (List.not_mem_nil s)
  | cons t rest ih =>
    simp only [List.foldl_cons]
    rcases List.mem_cons.mp hs with he | hrest
    · subst he
      simp only [hm, if_true, hv]
      exact resetfold_keeps rest _ s.name (dget_dset_self acc s.name (PValue.plist []))
    · by_cases hmt : dmem acc t.name = true
      · by_cases hvt : t.is_variadic = true
        · simp only [hmt, if_true, hvt]
          exact ih _ hrest (dmem_dset_of acc t.name s.name (PValue.plist []) hm)
        · simp only [Bool.not_eq_true] at hvt
          simp only [hmt, if_true, hvt, Bool.false_eq_true, if_false]
          exact ih acc hrest hm
      · simp only [Bool.not_eq_true] at hmt
        simp only [hmt, Bool.false_eq_true, if_false]
        exact ih acc hrest hm

/-! ### Projections of `_run_component` -/

theorem run_component_inputs (p : Pipeline) (name : String) (comp : Component)
    (visits : Dict Nat) (inputs : Dict PValue)
    (hc : dget p.components name = some comp) :
    (_run_component p name visits inputs).2.2 = resetVariadicInputs comp inputs := by
  unfold _run_component
  rw [hc]
  cases hr : comp.run inputs <;> simp [hr]

theorem run_component_visits (p : Pipeline) (name : String) (comp : Component)
    (visits : Dict Nat) (inputs : Dict PValue)
    (hc : dget p.components name = some comp) :
    (_run_component p name visits inputs).2.1 =
      dset visits name ((dget visits name).getD 0 + 1) := by
  unfold _run_component
  rw [hc]
  cases hr : comp.run inputs <;> simp [hr]

/-! ### Lemmas about the extra-outputs merge -/

theorem dmem_dset_ne {α : Type} (d : Dict α) (k k' : String) (v : α) (h : k' ≠ k) :
    dmem (dset d k' v) k = dmem d k := by
  simp [dmem, dget_dset_ne d k k' v h]

theorem mergeInner_dget (output : Dict Value) (inner : Dict Value) (k : String) :
    dget (mergeInner inner output) k =
      if dmem inner k then dget inner k else dget output k := by
  induction output generalizing inner with
  | nil =>
    by_cases hm : dmem inner k = true
    · simp [mergeInner, hm]
    · simp only [Bool.not_eq_true] at hm
      have : dget inner k = none := by
        have := (dget_eq_none_iff inner k)
        simp only [dmem] at hm
        cases hg : dget inner k with
        | none => rfl
        | some v => rw [hg] at hm; simp at hm
      simp [mergeInner, hm, this, dget]
  | cons kv rest ih =>
    obtain ⟨k0, v0⟩ := kv
    have hstep : mergeInner inner ((k0, v0) :: rest) =
        mergeInner (if dmem inner k0 then inner else dset inner k0 v0) rest := by
      simp only [mergeInner, List.foldl_cons]
    rw [hstep]
    by_cases hm0 : dmem inner k0 = true
    · rw [if_pos hm0, ih inner]
      by_cases hk : k0 = k
      · subst hk
        simp [dget, hm0]
      · simp [dget, hk]
    · simp only [Bool.not_eq_true] at hm0
      rw [hm0]
      simp only [Bool.false_eq_true, if_false]
      rw [ih (dset inner k0 v0)]
      by_cases hk : k0 = k
      · subst hk
        have h1 : dmem (dset inner k0 v0) k0 = true := by
          simp [dmem, dget_dset_self]
        have h2 : dmem inner k0 = false := hm0
        rw [h1, if_pos rfl, dget_dset_self, h2]
        simp [dget]
      · rw [dmem_dset_ne inner k k0 v0 hk, dget_dset_ne inner k k0 v0 hk]
        simp [dget, hk]

theorem mergeExtras_dget (extras : Dict (Dict Value)) (final : Dict (Dict Value))
    (name : String) (hnd : (dkeys extras).Nodup) :
    dget (mergeExtras final extras) name =
      match dget extras name with
      | none => dget final name
      | some output =>
        match dget final name with
        | none => some output
        | some inner => some (mergeInner inner output) := by
  induction extras generalizing final with
  | nil => simp [mergeExtras, dget]
  | cons kv rest ih =>
    obtain ⟨n0, o0⟩ := kv
    have hnd' : (dkeys rest).Nodup := by
      simpa [dkeys] using hnd.of_cons
    have hn0 : n0 ∉ dkeys rest := by
      have := hnd
      simp only [dkeys, List.map_cons, List.nodup_cons] at this
      exact this.1
    have hstep : mergeExtras final ((n0, o0) :: rest) =
        mergeExtras
          (match dget final n0 with
           | none => dset final n0 o0
           | some inner => dset final n0 (mergeInner inner o0)) rest := by
      simp only [mergeExtras, List.foldl_cons]
    rw [hstep, ih _ hnd']
    by_cases hk : n0 = name
    · subst hk
      have hrest : dget rest n0 = none := (dget_eq_none_iff rest n0).mpr hn0
      rw [hrest]
      cases hf : dget final n0 with
      | none => simp [dget, dget_dset_self]
      | some inner => simp [dget, dget_dset_self]
    · have hhead : dget ((n0, o0) :: rest) name = dget rest name := by
        simp [dget, hk]
      rw [hhead]
      cases hf : dget final n0 with
      | none => rw [dget_dset_ne final name n0 o0 hk]
      | some inner => rw [dget_dset_ne final name n0 _ hk]

/-! ### Model validation against the spec's concrete scenarios -/

/-- Spec section 8 concrete scenario: `run({"add_one": {"value": 3}})`
returns `{"double": {"doubled": 8}}`. -/
theorem model_check_chain :
    (run chainPipeline [] chainData [] 20).map RunExit.finalOutputsOf =
      some (some [("double", [("doubled", Value.vnat 8)])]) := by decide

/-- Spec section 8 cycle convergence: the 2-cycle `a <-> b` terminates
and returns `b`'s final non-looping output. -/
theorem model_check_cycle_convergence :
    (run cycPipeline [] [] [] 40).map RunExit.finalOutputsOf =
      some (some [("b", [("final", Value.vnat 3)])]) := by decide

/-! ### Claim C3 -/

/-- C3: for every component invocation, the engine raises
`PipelineRuntimeError` naming the offending component exactly when the
component's run operation returns a non-mapping value; a mapping result
raises no such error (it is returned as the component's output); and any
failing step aborts the whole run (the outer loop returns the error at
once). -/
theorem claimC3_nonmapping_error (p : Pipeline) (name : String) (comp : Component)
    (visits : Dict Nat) (inputs : Dict PValue)
    (hc : dget p.components name = some comp) :
    ((∃ v, comp.run inputs = RunResult.notMapping v) ↔
      (_run_component p name visits inputs).1 =
        Except.error (PipelineError.PipelineRuntimeError name))
    ∧ (∀ out, comp.run inputs = RunResult.mapping out →
        (_run_component p name visits inputs).1 = Except.ok out)
    ∧ (∀ (io : List String) (fuel : Nat) (st : RunState) (e : PipelineError)
        (st' : RunState), st.run_queue ≠ [] →
        runStep p io fuel st = RunOutcome.failed e st' →
        runLoop p io (fuel + 1) st = some (RunExit.failed e st')) := by
  refine ⟨⟨?_, ?_⟩, ?_, ?_⟩
  · rintro ⟨v, hv⟩
    unfold _run_component
    rw [hc]
    simp [hv]
  · intro h
    cases hr : comp.run inputs with
    | notMapping v => exact ⟨v, rfl⟩
    | mapping out =>
      unfold _run_component at h
      rw [hc] at h
      simp [hr] at h
  · intro out hout
    unfold _run_component
    rw [hc]
    simp [hout]
  · intro io fuel st e st' hne hstep
    have hq : st.run_queue.isEmpty = false := by
      cases hq : st.run_queue with
      | nil => exact absurd hq hne
      | cons a t => simp [List.isEmpty]
    simp [runLoop, hq, hstep]

/-- Witness for C3: the contract-breaking component `badComp` of
`witPipeline`, run on empty inputs. -/
theorem claimC3_witness :
    ((∃ v, badComp.run [] = RunResult.notMapping v) ↔
      (_run_component witPipeline "bad" [] []).1 =
        Except.error (PipelineError.PipelineRuntimeError "bad"))
    ∧ (∀ out, badComp.run [] = RunResult.mapping out →
        (_run_component witPipeline "bad" [] []).1 = Except.ok out)
    ∧ (∀ (io : List String) (fuel : Nat) (st : RunState) (e : PipelineError)
        (st' : RunState), st.run_queue ≠ [] →
        runStep witPipeline io fuel st = RunOutcome.failed e st' →
        runLoop witPipeline io (fuel + 1) st = some (RunExit.failed e st')) :=
  claimC3_nonmapping_error witPipeline "bad" badComp [] [] rfl

/-! ### Claim C7 -/

/-- C7: after a component invocation, every variadic input socket of the
component that was present in the consumed inputs is reset to an empty
list in the inputs mapping, while keys named by no variadic socket are
left unchanged by the invocation step itself. -/
theorem claimC7_variadic_reset (p : Pipeline) (name : String) (comp : Component)
    (visits : Dict Nat) (inputs : Dict PValue)
    (hc : dget p.components name = some comp) :
    (∀ s ∈ comp.input_sockets, s.is_variadic = true → dmem inputs s.name = true →
      dget (_run_component p name visits inputs).2.2 s.name = some (PValue.plist []))
    ∧ (∀ k : String, (∀ s ∈ comp.input_sockets, s.is_variadic = true → s.name ≠ k) →
      dget (_run_component p name visits inputs).2.2 k = dget inputs k) := by
  rw [run_component_inputs p name comp visits inputs hc]
  simp only [resetVariadicInputs]
  exact ⟨fun s hs hv hm => resetfold_sets comp.input_sockets inputs s hs hv hm,
         fun k hk => resetfold_preserve comp.input_sockets inputs k hk⟩

/-- Witness for C7: `witComp` of `witPipeline` run on inputs holding its
variadic socket `many`, its plain socket `one` and its user socket. -/
theorem claimC7_witness :
    (∀ s ∈ witComp.input_sockets, s.is_variadic = true →
      dmem [("many", PValue.plist [Value.vnat 1]), ("one", PValue.pv (Value.vnat 2)),
        ("user_in", PValue.pv (Value.vnat 3))] s.name = true →
      dget (_run_component witPipeline "w" [("w", 0)]
        [("many", PValue.plist [Value.vnat 1]), ("one", PValue.pv (Value.vnat 2)),
         ("user_in", PValue.pv (Value.vnat 3))]).2.2 s.name = some (PValue.plist []))
    ∧ (∀ k : String, (∀ s ∈ witComp.input_sockets, s.is_variadic = true → s.name ≠ k) →
      dget (_run_component witPipeline "w" [("w", 0)]
        [("many", PValue.plist [Value.vnat 1]), ("one", PValue.pv (Value.vnat 2)),
         ("user_in", PValue.pv (Value.vnat 3))]).2.2 k =
      dget [("many", PValue.plist [Value.vnat 1]), ("one", PValue.pv (Value.vnat 2)),
        ("user_in", PValue.pv (Value.vnat 3))] k) :=
  claimC7_variadic_reset witPipeline "w" witComp [("w", 0)]
    [("many", PValue.plist [Value.vnat 1]), ("one", PValue.pv (Value.vnat 2)),
     ("user_in", PValue.pv (Value.vnat 3))] rfl

/-! ### Claim C8 -/

/-- C8: after a component runs inside the cyclic subgraph runner, a
pending entry is deleted exactly when its socket's sender set is
non-empty and entirely contained in the cycle; entries with no senders
(the external caller's) and entries with a sender outside the cycle are
preserved. -/
theorem claimC8_cycle_input_deletion (comp : Component) (cycle : List String)
    (pending : Dict PValue) (k : String) (socket : InputSocket)
    (hs : findInputSocket comp k = some socket) :
    (socket.senders ≠ [] → (∀ x ∈ socket.senders, cycle.contains x = true) →
      dget (deleteConsumedCycleInputs comp cycle pending) k = none)
    ∧ (socket.senders = [] →
      dget (deleteConsumedCycleInputs comp cycle pending) k = dget pending k)
    ∧ ((∃ x ∈ socket.senders, cycle.contains x = false) →
      dget (deleteConsumedCycleInputs comp cycle pending) k = dget pending k) := by
  refine ⟨?_, ?_, ?_⟩
  · intro hne hall
    have hbne : socket.senders.isEmpty = false := by
      cases hsend : socket.senders with
      | nil => exact absurd hsend hne
      | cons a t => rfl
    have hc : cycleConsumed comp cycle k = true := by
      simp only [cycleConsumed, hs, hbne, Bool.not_false, Bool.true_and]
      rw [List.all_eq_true]
      intro x hx
      simpa using hall x hx
    by_cases hm : k ∈ dkeys pending
    · exact delfold_deleted comp cycle k (dkeys pending) pending hm hc
    · have h1 := delfold_preserved comp cycle k (dkeys pending) pending (Or.inr hm)
      have h2 := (dget_eq_none_iff pending k).mpr hm
      exact h1.trans h2
  · intro hemp
    have hc : cycleConsumed comp cycle k = false := by
      simp [cycleConsumed, hs, hemp]
    exact delfold_preserved comp cycle k (dkeys pending) pending (Or.inl hc)
  · rintro ⟨x, hx, hout⟩
    have hc : cycleConsumed comp cycle k = false := by
      simp only [cycleConsumed, hs]
      cases hb : socket.senders.all (fun s => cycle.contains s) with
      | false => simp
      | true =>
        exfalso
        rw [List.all_eq_true] at hb
        have hbx := hb x hx
        rw [hout] at hbx
        exact absurd hbx (by simp)
    exact delfold_preserved comp cycle k (dkeys pending) pending (Or.inl hc)

/-- Witness for C8: `witComp` with the one-component cycle `["w"]` — its
variadic socket `many` (fed from inside the cycle) is deleted, its
user socket and its outside-fed socket `one` are preserved. -/
theorem claimC8_witness :
    ((⟨"many", ["w"], true, false, none⟩ : InputSocket).senders ≠ [] →
      (∀ x ∈ (⟨"many", ["w"], true, false, none⟩ : InputSocket).senders,
        (["w"] : List String).contains x = true) →
      dget (deleteConsumedCycleInputs witComp ["w"]
        [("many", PValue.plist []), ("one", PValue.pv (Value.vnat 2)),
         ("user_in", PValue.pv (Value.vnat 3))]) "many" = none)
    ∧ ((⟨"many", ["w"], true, false, none⟩ : InputSocket).senders = [] →
      dget (deleteConsumedCycleInputs witComp ["w"]
        [("many", PValue.plist []), ("one", PValue.pv (Value.vnat 2)),
         ("user_in", PValue.pv (Value.vnat 3))]) "many" =
      dget [("many", PValue.plist []), ("one", PValue.pv (Value.vnat 2)),
        ("user_in", PValue.pv (Value.vnat 3))] "many")
    ∧ ((∃ x ∈ (⟨"many", ["w"], true, false, none⟩ : InputSocket).senders,
        (["w"] : List String).contains x = false) →
      dget (deleteConsumedCycleInputs witComp ["w"]
        [("many", PValue.plist []), ("one", PValue.pv (Value.vnat 2)),
         ("user_in", PValue.pv (Value.vnat 3))]) "many" =
      dget [("many", PValue.plist []), ("one", PValue.pv (Value.vnat 2)),
        ("user_in", PValue.pv (Value.vnat 3))] "many") :=
  claimC8_cycle_input_deletion witComp ["w"]
    [("many", PValue.plist []), ("one", PValue.pv (Value.vnat 2)),
     ("user_in", PValue.pv (Value.vnat 3))] "many"
    ⟨"many", ["w"], true, false, none⟩ rfl

/-! ### Claim C9 -/

/-- C9: when a component's run returns a non-mapping, the raised
`PipelineRuntimeError` comes after the visit-counter increment and after
the variadic-input reset: the state returned alongside the error carries
the incremented counter and the reset inputs (the failing invocation
still counts as a visit and still mutates the inputs). -/
theorem claimC9_error_after_mutation (p : Pipeline) (name : String)
    (comp : Component) (visits : Dict Nat) (inputs : Dict PValue) (v : Value)
    (hc : dget p.components name = some comp)
    (hr : comp.run inputs = RunResult.notMapping v) :
    _run_component p name visits inputs =
      (Except.error (PipelineError.PipelineRuntimeError name),
       dset visits name ((dget visits name).getD 0 + 1),
       resetVariadicInputs comp inputs) := by
  unfold _run_component
  rw [hc]
  simp [hr]

/-- Witness for C9: `badComp` of `witPipeline`, run on inputs holding its
variadic socket, fails while still incrementing `bad`'s counter and
resetting the variadic entry. -/
theorem claimC9_witness :
    _run_component witPipeline "bad" [("bad", 4)]
        [("many", PValue.plist [Value.vnat 1])] =
      (Except.error (PipelineError.PipelineRuntimeError "bad"),
       dset [("bad", 4)] "bad" ((dget [("bad", 4)] "bad").getD 0 + 1),
       resetVariadicInputs badComp [("many", PValue.plist [Value.vnat 1])]) :=
  claimC9_error_after_mutation witPipeline "bad" badComp [("bad", 4)]
    [("many", PValue.plist [Value.vnat 1])] (Value.vnat 7) rfl rfl

/-! ### Claim C10 -/

/-- C10: the extra-outputs merge at the end of `run` never overwrites an
existing key of an existing final-outputs entry — cached values are added
only for keys not already present — and the whole cached output is used
only when the component has no final-outputs entry at all. -/
theorem claimC10_extra_merge (final extras : Dict (Dict Value))
    (name : String) (output inner : Dict Value)
    (hnd : (dkeys extras).Nodup) (hx : dget extras name = some output) :
    (dget final name = some inner →
      dget (mergeExtras final extras) name = some (mergeInner inner output)
      ∧ (∀ k, dmem inner k = true → dget (mergeInner inner output) k = dget inner k)
      ∧ (∀ k, dmem inner k = false → dget (mergeInner inner output) k = dget output k))
    ∧ (dget final name = none →
      dget (mergeExtras final extras) name = some output) := by
  constructor
  · intro hf
    refine ⟨?_, ?_, ?_⟩
    · rw [mergeExtras_dget extras final name hnd, hx, hf]
    · intro k hm
      rw [mergeInner_dget output inner k, hm]
      simp
    · intro k hm
      rw [mergeInner_dget output inner k, hm]
      simp
  · intro hf
    rw [mergeExtras_dget extras final name hnd, hx, hf]

/-- Witness for C10: component `c` has both a final entry `{x: 9}` and a
cached extra output `{x: 1, y: 2}`; the merge keeps `x = 9` and adds only
`y`. -/
theorem claimC10_witness :
    (dget [("c", [("x", Value.vnat 9)])] "c" = some [("x", Value.vnat 9)] →
      dget (mergeExtras [("c", [("x", Value.vnat 9)])]
          [("c", [("x", Value.vnat 1), ("y", Value.vnat 2)])]) "c" =
        some (mergeInner [("x", Value.vnat 9)]
          [("x", Value.vnat 1), ("y", Value.vnat 2)])
      ∧ (∀ k, dmem [("x", Value.vnat 9)] k = true →
          dget (mergeInner [("x", Value.vnat 9)]
            [("x", Value.vnat 1), ("y", Value.vnat 2)]) k =
          dget [("x", Value.vnat 9)] k)
      ∧ (∀ k, dmem [("x", Value.vnat 9)] k = false →
          dget (mergeInner [("x", Value.vnat 9)]
            [("x", Value.vnat 1), ("y", Value.vnat 2)]) k =
          dget [("x", Value.vnat 1), ("y", Value.vnat 2)] k))
    ∧ (dget [("c", [("x", Value.vnat 9)])] "c" = none →
      dget (mergeExtras [("c", [("x", Value.vnat 9)])]
          [("c", [("x", Value.vnat 1), ("y", Value.vnat 2)])]) "c" =
        some [("x", Value.vnat 1), ("y", Value.vnat 2)]) :=
  claimC10_extra_merge [("c", [("x", Value.vnat 9)])]
    [("c", [("x", Value.vnat 1), ("y", Value.vnat 2)])] "c"
    [("x", Value.vnat 1), ("y", Value.vnat 2)] [("x", Value.vnat 9)]
    (by decide) (by decide)

/-! ### Claim C4 -/

/-- C4: for a fixed graph and fixed inputs, repeated `run` calls with
fresh state produce identical results — a second call started from the
visit counters the first call left behind returns exactly what the first
call returned, and the result does not depend on the instance state the
call started from at all (the engine resets it via `_init_graph`). -/
theorem claimC4_deterministic_rerun (p : Pipeline) (v1 v2 : Dict Nat)
    (data : Dict (Dict Value)) (io : List String) (fuel : Nat) :
    run p (visitsAfter (run p v1 data io fuel)) data io fuel = run p v1 data io fuel
    ∧ run p v1 data io fuel = run p v2 data io fuel :=
  ⟨rfl, rfl⟩

/-! ### Claim C1 -/

theorem sl_step_le (cap k : Nat) (h : ¬k > cap) :
    subgraphStep (selfLoopPipeline cap) ["a"] [] (slSubState k) =
      SubOutcome.next (slSubState (k + 1)) := by
  simp [subgraphStep, selfLoopPipeline, selfLoopComp, slSubState, dget, dset, dmem, ddel,
    dkeys, _is_lazy_variadic, _component_has_enough_inputs_to_run, _run_component,
    resetVariadicInputs, deleteConsumedCycleInputs, cycleConsumed, sendsOutputToCycle,
    findInputSocket, findOutputSocket, _dequeue_waiting_component,
    _find_components_that_will_receive_no_input, _dequeue_component, _find_receivers_from,
    _distribute_output, _enqueue_component, stuckCheckBlock, loopDecision, h]

theorem sl_step_gt (cap k : Nat) (h : k > cap) :
    subgraphStep (selfLoopPipeline cap) ["a"] [] (slSubState k) =
      SubOutcome.errored (PipelineError.PipelineMaxComponentRuns "a")
        { slSubState k with run_queue := [] } := by
  simp [subgraphStep, selfLoopPipeline, selfLoopComp, slSubState, dget, dset, dmem,
    _is_lazy_variadic, _component_has_enough_inputs_to_run, findInputSocket, h]

theorem sl_loop (cap : Nat) : ∀ (j k : Nat), k ≤ cap + 1 → cap + 2 - k ≤ j →
    subgraphLoop (selfLoopPipeline cap) ["a"] [] j (slSubState k) =
      some (SubExit.failed (PipelineError.PipelineMaxComponentRuns "a")
        { slSubState (cap + 1) with run_queue := [] })
  | 0, k, hk, hj => by omega
  | j + 1, k, hk, hj => by
    by_cases h : k > cap
    · have hke : k = cap + 1 := by omega
      subst hke
      simp [subgraphLoop, sl_step_gt cap (cap + 1) h]
    · have hrec := sl_loop cap j (k + 1) (by omega) (by omega)
      simp [subgraphLoop, sl_step_le cap k h, hrec]

/-- C1 counterexample: on the canonical self-loop pipeline with cap 100,
`run` does raise `PipelineMaxComponentRuns`, but the visit counter at the
raise is 101, not 100 — the 101st attempted visit still executed the
component, so the error did not occur on the 101st attempted visit as
the claim states. -/
theorem claimC1_counterexample :
    (run (selfLoopPipeline 100) [] slData [] 110).map RunExit.errorOf =
      some (some (PipelineError.PipelineMaxComponentRuns "a"))
    ∧ visitsAfter (run (selfLoopPipeline 100) [] slData [] 110) ≠ [("a", 100)]
    ∧ visitsAfter (run (selfLoopPipeline 100) [] slData [] 110) = [("a", 101)] := by
  refine ⟨by decide, by decide, by decide⟩

/-- C1 (amended): for the self-looping component under cap `c`, the check
`visits > cap` precedes each execution and the counter is incremented on
each execution, so from a state with `k` completed executions the
subgraph loop always ends by raising `PipelineMaxComponentRuns` with the
counter at `c + 1`: executions 1..c+1 all happen and the error occurs on
attempt `c + 2` — for cap 100, on the 102nd attempted visit, with the
counter at 101. -/
theorem claimC1_amended (cap j k : Nat) (hk : k ≤ cap + 1) (hj : cap + 2 - k ≤ j) :
    subgraphLoop (selfLoopPipeline cap) ["a"] [] j (slSubState k) =
      some (SubExit.failed (PipelineError.PipelineMaxComponentRuns "a")
        { slSubState (cap + 1) with run_queue := [] })
    ∧ (run (selfLoopPipeline 100) [] slData [] 110).map RunExit.errorOf =
        some (some (PipelineError.PipelineMaxComponentRuns "a"))
    ∧ visitsAfter (run (selfLoopPipeline 100) [] slData [] 110) = [("a", 101)] :=
  ⟨sl_loop cap j k hk hj, by decide, by decide⟩

/-- Witness for the amended C1 at cap 5, starting from the fresh subgraph
state. -/
theorem claimC1_witness :
    subgraphLoop (selfLoopPipeline 5) ["a"] [] 7 (slSubState 0) =
      some (SubExit.failed (PipelineError.PipelineMaxComponentRuns "a")
        { slSubState 6 with run_queue := [] })
    ∧ (run (selfLoopPipeline 100) [] slData [] 110).map RunExit.errorOf =
        some (some (PipelineError.PipelineMaxComponentRuns "a"))
    ∧ visitsAfter (run (selfLoopPipeline 100) [] slData [] 110) = [("a", 101)] :=
  claimC1_amended 5 7 0 (by omega) (by omega)

/-! ### Claim C2 -/

theorem lazy_step0 (f : Nat) :
    runStep lazyPipeline [] f lazyState0 = RunOutcome.next lazyState1 := rfl

theorem lazy_step1 (f : Nat) :
    runStep lazyPipeline [] f lazyState1 = RunOutcome.next lazyState2 := rfl

theorem lazy_step2 (f : Nat) :
    runStep lazyPipeline [] f lazyState2 = RunOutcome.next lazyStuckState := rfl

theorem lazy_step_fix (f : Nat) :
    runStep lazyPipeline [] f lazyStuckState = RunOutcome.next lazyStuckState := rfl

theorem lazy_loop_none : ∀ f, runLoop lazyPipeline [] f lazyStuckState = none
  | 0 => rfl
  | f + 1 => by
    have hq : lazyStuckState.run_queue.isEmpty = false := rfl
    simp [runLoop, hq, lazy_step_fix f, lazy_loop_none f]

theorem run_eq_none_of_loop (p : Pipeline) (v : Dict Nat) (data : Dict (Dict Value))
    (io : List String) (fuel : Nat)
    (h : runLoop p io fuel
      { visits := _init_graph p,
        components_inputs := initSocketDefaults p (_init_inputs_state p data),
        run_queue := p.topo_order, waiting_queue := [],
        before_last_waiting_queue := none, last_waiting_queue := none,
        final_outputs := [], extra_outputs := [], warnings := 0 } = none) :
    run p v data io fuel = none := by
  unfold run
  simp only [h]

theorem lazy_run_none : ∀ f, run lazyPipeline [] lazyData [] f = none
  | 0 => rfl
  | 1 => rfl
  | 2 => rfl
  | f + 3 => by
    apply run_eq_none_of_loop
    show runLoop lazyPipeline [] (f + 1 + 1 + 1) lazyState0 = none
    have h0 : lazyState0.run_queue.isEmpty = false := rfl
    have h1 : lazyState1.run_queue.isEmpty = false := rfl
    have h2 : lazyState2.run_queue.isEmpty = false := rfl
    simp [runLoop, h0, h1, h2, lazy_step0, lazy_step1, lazy_step2, lazy_loop_none f]

/-- C2 counterexample: in the lazy-variadic scenario the no-progress
check fires with the run queue empty, the waiting queue `{"v"}` and both
snapshots equal to `{"v"}`, yet the engine does not declare a stuck
loop: the check emits no warning and does not break (first conjunct,
warning count and break flag of the block), the whole step maps the
repeating state to itself (second conjunct), and the run never
terminates at all — with fuel 60 it is still spinning (third conjunct) —
instead of warning once and returning partial outputs as the claim
states. The code additionally requires `_is_stuck_in_a_loop`, which is
false here because the waiting component is a lazy-variadic consumer. -/
theorem claimC2_counterexample :
    (stuckCheckBlock lazyPipeline
      [("s", [("u", PValue.pv (Value.vnat 0))]), ("v", [])]
      [] ["v"] (some ["v"]) (some ["v"]) 0).2.2.2.2.2 = (0, false)
    ∧ runStep lazyPipeline [] 10 lazyStuckState = RunOutcome.next lazyStuckState
    ∧ run lazyPipeline [] lazyData [] 60 = none :=
  ⟨by decide, lazy_step_fix 10, lazy_run_none 60⟩

/-- C2 (amended): when the run queue is empty, the waiting queue is
non-empty, the two snapshots agree as sets AND no waiting component is a
lazy-variadic consumer or an all-defaults component
(`_is_stuck_in_a_loop`), the no-progress block declares a stuck loop:
it increments the warning count by exactly one and signals the loop to
break, leaving the rest of the state untouched; the stuck scenario run
then terminates normally with exactly one warning, no error, and the
partial outputs produced before the blockage. -/
theorem claimC2_amended (p : Pipeline) (ci : Dict (Dict PValue)) (wq : List String)
    (b l : List String) (w : Nat) (hwq : wq ≠ [])
    (hsame : sameSet b l = true) (hstuck : _is_stuck_in_a_loop p wq = true) :
    stuckCheckBlock p ci [] wq (some b) (some l) w =
      (ci, [], wq, some b, some l, w + 1, true)
    ∧ (run stuckPipeline [] stuckData [] 30).map RunExit.warningsOf = some 1
    ∧ (run stuckPipeline [] stuckData [] 30).map RunExit.finalOutputsOf =
        some (some [("d", [("do", Value.vnat 6)])])
    ∧ (run stuckPipeline [] stuckData [] 30).map RunExit.errorOf = some none := by
  refine ⟨?_, by decide, by decide, by decide⟩
  have hwq' : wq.isEmpty = false := by
    cases hw : wq with
    | nil => exact absurd hw hwq
    | cons a t => rfl
  simp [stuckCheckBlock, hwq', hsame, hstuck]

/-- Witness for the amended C2: the blocked component `b` of the stuck
scenario waits alone with agreeing snapshots, and the block declares the
stuck loop with one warning. -/
theorem claimC2_witness :
    stuckCheckBlock stuckPipeline [] [] ["b"] (some ["b"]) (some ["b"]) 0 =
      ([], [], ["b"], some ["b"], some ["b"], 1, true)
    ∧ (run stuckPipeline [] stuckData [] 30).map RunExit.warningsOf = some 1
    ∧ (run stuckPipeline [] stuckData [] 30).map RunExit.finalOutputsOf =
        some (some [("d", [("do", Value.vnat 6)])])
    ∧ (run stuckPipeline [] stuckData [] 30).map RunExit.errorOf = some none :=
  claimC2_amended stuckPipeline [] ["b"] ["b"] ["b"] 0 (by decide) (by decide) (by decide)

/-! ### Claims C5 and C6 -/

theorem stuckBrkW (p : Pipeline) (ci ci' : Dict (Dict PValue)) (rq wq rq' wq' : List String)
    (b l b' l' : Option (List String)) (w w' : Nat)
    (h : stuckCheckBlock p ci rq wq b l w = (ci', rq', wq', b', l', w', true)) :
    w' = w + 1 := by
  unfold stuckCheckBlock at h
  split at h
  · split at h
    · split at h
      · split at h
        · simp_all
        · simp_all
      · simp_all
    · simp_all
  · simp_all

theorem stuckCheckBlock_warn (p : Pipeline) (ci : Dict (Dict PValue))
    (rq wq : List String) (b l : Option (List String)) (w : Nat)
    (h : (stuckCheckBlock p ci rq wq b l w).2.2.2.2.2.2 = true) :
    (stuckCheckBlock p ci rq wq b l w).2.2.2.2.2.1 = w + 1 := by
  rcases hx : stuckCheckBlock p ci rq wq b l w with ⟨ci', rq', wq', b', l', w', brk⟩
  rw [hx] at h
  simp only at h
  subst h
  exact stuckBrkW p ci ci' rq wq rq' wq' b l b' l' w w' hx

theorem ld_flag_set (b : Bool) (st' : SubState) :
    ∃ s, loopDecision b true st' = SubOutcome.finished s := by
  cases b <;> exact ⟨st', rfl⟩

theorem ld_flag_clear (b : Bool) (st' : SubState) (w : Nat)
    (hw : b = true → st'.warnings = w + 1) :
    (∃ s, loopDecision b false st' = SubOutcome.next s) ∨
    (∃ s, loopDecision b false st' = SubOutcome.finished s ∧ s.warnings = w + 1) := by
  cases b
  · exact Or.inl ⟨st', rfl⟩
  · exact Or.inr ⟨st', rfl, hw rfl⟩

/-- C5: when the popped component is cycle-affiliated and has enough
input (and is not deferred as a lazy-variadic consumer), the `run` loop
body behaves exactly as the claim describes: it hands control to the
cyclic subgraph runner for the component's FIRST recorded cycle — the
other recorded cycles are never consulted, so at most one cycle is
processed per activation — clears the outer run queue, and distributes
the subgraph's returned outputs to their receivers starting from the
cleared queue (`cycleDispatchFromSpec` is that description, stated from
the claim). -/
theorem claimC5_cycle_dispatch (p : Pipeline) (io : List String) (fuel : Nat)
    (st : RunState) (name : String) (rest : List String) (comp : Component)
    (c : List String) (cs : List (List String))
    (hq : st.run_queue = name :: rest)
    (hc : dget p.components name = some comp)
    (hlazy : (_is_lazy_variadic comp &&
      !(rest.all fun n =>
        match dget p.components n with
        | some c => _is_lazy_variadic c
        | none => false)) = false)
    (hready : _component_has_enough_inputs_to_run p name st.components_inputs = true)
    (hcyc : (dget p.components_in_cycles name).getD [] = c :: cs) :
    runStep p io fuel st = cycleDispatchFromSpec p io fuel name c
      { st with run_queue := rest } := by
  unfold runStep cycleDispatchFromSpec
  simp [hq, hc, hlazy, hready, hcyc]

/-- Witness for C5: the cyclic pipeline's first step from the fresh run
state dispatches component `a` into its cycle `["a", "b"]`. -/
theorem claimC5_witness :
    runStep cycPipeline [] 20 cycInitState =
      cycleDispatchFromSpec cycPipeline [] 20 "a" ["a", "b"]
        { cycInitState with run_queue := ["b"] } :=
  claimC5_cycle_dispatch cycPipeline [] 20 cycInitState "a" ["b"] cycAComp
    ["a", "b"] [] rfl rfl rfl rfl rfl

/-- C6: after the cyclic subgraph runner successfully runs a ready
component, the inner loop exits exactly when none of the outputs the
component just produced feeds a receiver inside the cycle
(`sendsOutputToCycle` is false); if some output does feed the cycle, the
loop continues — the only other way it can stop in that iteration is the
stuck-loop abort, which emits exactly one warning. -/
theorem claimC6_cycle_exit (p : Pipeline) (cycle : List String) (io : List String)
    (st : SubState) (name : String) (rest : List String) (comp : Component)
    (res : Dict Value)
    (hq : st.run_queue = name :: rest)
    (hc : dget p.components name = some comp)
    (hlazy : (_is_lazy_variadic comp &&
      !(rest.all fun n =>
        match dget p.components n with
        | some c => _is_lazy_variadic c
        | none => false)) = false)
    (hready : _component_has_enough_inputs_to_run p name st.components_inputs = true)
    (hvis : ¬((dget st.visits name).getD 0 > p.max_runs_per_component))
    (hrun : comp.run ((dget st.components_inputs name).getD []) = RunResult.mapping res) :
    (sendsOutputToCycle comp res cycle = false →
      ∃ st', subgraphStep p cycle io st = SubOutcome.finished st')
    ∧ (sendsOutputToCycle comp res cycle = true →
      (∃ st', subgraphStep p cycle io st = SubOutcome.next st')
      ∨ (∃ st', subgraphStep p cycle io st = SubOutcome.finished st'
          ∧ st'.warnings = st.warnings + 1)) := by
  have hrc : _run_component p name st.visits ((dget st.components_inputs name).getD []) =
      (Except.ok res, dset st.visits name ((dget st.visits name).getD 0 + 1),
       resetVariadicInputs comp ((dget st.components_inputs name).getD [])) := by
    unfold _run_component
    rw [hc]
    simp [hrun]
  unfold subgraphStep
  simp only [hq, hc, hlazy, hready, Bool.false_eq_true, if_false, if_neg hvis, hrc]
  constructor
  · intro hsend
    rw [hsend]
    simp only [Bool.not_false]
    exact ld_flag_set _ _
  · intro hsend
    rw [hsend]
    simp only [Bool.not_true]
    exact ld_flag_clear _ _ _ (fun hb => stuckCheckBlock_warn p _ _ _ _ _ _ hb)

/-- Witness for C6: in the cyclic pipeline, `b` running on `bin = 3`
produces only the receiver-less `final` output, so the inner loop exits. -/
theorem claimC6_witness :
    (sendsOutputToCycle cycBComp [("final", Value.vnat 3)] ["a", "b"] = false →
      ∃ st', subgraphStep cycPipeline ["a", "b"] [] cycSubStateB =
        SubOutcome.finished st')
    ∧ (sendsOutputToCycle cycBComp [("final", Value.vnat 3)] ["a", "b"] = true →
      (∃ st', subgraphStep cycPipeline ["a", "b"] [] cycSubStateB =
        SubOutcome.next st')
      ∨ (∃ st', subgraphStep cycPipeline ["a", "b"] [] cycSubStateB =
          SubOutcome.finished st' ∧ st'.warnings = cycSubStateB.warnings + 1)) :=
  claimC6_cycle_exit cycPipeline ["a", "b"] [] cycSubStateB "b" [] cycBComp
    [("final", Value.vnat 3)] rfl rfl rfl rfl (by decide) rfl

end Haystack
